import Mathlib

/-!
Verification development for the video-merge bot (src/bot.py).

The Python script is shallowly embedded: pure computations (URL
classification, playlist parsing, base-URL joining, manifest formatting,
the size gate, progress percentages) become Lean functions translated
line by line from the source; the effectful pipeline (`handle_message`,
`download_m3u8`, `download_file`, `merge_segments_ffmpeg`) becomes
explicit state passing over an oracle `World` describing the behaviour
of the network, the ffmpeg subprocess, the filesystem size query and the
chat-platform upload, producing an explicit list of observable events.
The source is single-threaded sequential `async` code with no parallel
fan-out, so a sequential trace semantics is faithful.
-/

namespace Bot

/-! ## String helpers mirroring the Python primitives used by bot.py -/

/-- Python `s.startswith(pre)`. -/
def strStartsWith (s pre : String) : Bool :=
  List.isPrefixOf pre.data s.data

/-- Python `s.endswith(suf)`. -/
def strEndsWith (s suf : String) : Bool :=
  List.isPrefixOf suf.data.reverse s.data.reverse

/-- Worker for `splitlines`: accumulates the current line (reversed); the
flag records that the previous character was a carriage return, so that a
following line feed is part of the same CRLF break. -/
def splitlinesAux : List Char → List Char → Bool → List String
  | [], acc, _ => if acc.isEmpty then [] else [String.mk acc.reverse]
  | c :: rest, acc, afterCR =>
    if c = '\n' then
      if afterCR then splitlinesAux rest acc false
      else String.mk acc.reverse :: splitlinesAux rest [] false
    else if c = '\r' then
      String.mk acc.reverse :: splitlinesAux rest [] true
    else
      splitlinesAux rest (c :: acc) false

/-- Python `s.splitlines()` restricted to the line endings that can occur
here: LF, CR and CRLF.  No trailing empty line for a trailing newline. -/
def splitlines (s : String) : List String :=
  splitlinesAux s.data [] false

/-- Python `s.rsplit(sep, 1)[0]` for `sep = the slash character`: everything
before the last slash, or the whole string when there is none
(bot.py line 53, `base_url = m3u8_url.rsplit(..., 1)[0]`). -/
def rsplitBase (s : String) : String :=
  match s.data.reverse.dropWhile (fun c => !(c = '/')) with
  | [] => s
  | _ :: rest => String.mk rest.reverse

/-! ## The two regular expressions (bot.py lines 20-21)

`M3U8_REGEX` and `VIDEO_REGEX` are embedded through a small backtracking
matcher whose candidate order mirrors the semantics of Python `re`:
leftmost starting position wins, alternatives are tried left to right,
`?` prefers presence, and character-class repetitions are greedy with
backtracking.  `matchLens r cs` lists the lengths of all matches of `r`
at the head of `cs` in Python preference order, so its head is the match
`re` would produce at that position. -/

inductive RE where
  | lit : List Char → RE
  | cat : RE → RE → RE
  | alt : RE → RE → RE
  | opt : RE → RE
  | plusCl : (Char → Bool) → RE
  | starCl : (Char → Bool) → RE

/-- Length of the maximal run of characters satisfying `p`. -/
def takeCl (p : Char → Bool) : List Char → Nat
  | [] => 0
  | c :: cs => if p c then takeCl p cs + 1 else 0

/-- All match lengths of `r` at the head of `cs`, best (Python) first. -/
def matchLens : RE → List Char → List Nat
  | .lit s, cs => if List.isPrefixOf s cs then [s.length] else []
  | .cat a b, cs =>
      (matchLens a cs).flatMap (fun n => (matchLens b (cs.drop n)).map (fun m => n + m))
  | .alt a b, cs => matchLens a cs ++ matchLens b cs
  | .opt a, cs => matchLens a cs ++ [0]
  | .plusCl p, cs => (List.range (takeCl p cs)).map (fun j => takeCl p cs - j)
  | .starCl p, cs => (List.range (takeCl p cs + 1)).map (fun j => takeCl p cs - j)

/-- Python `re.search`: try each start position left to right, return the
matched text at the first position admitting a match. -/
def searchAux (r : RE) : List Char → Option (List Char)
  | [] =>
    match matchLens r [] with
    | n :: _ => some (List.take n [])
    | [] => none
  | c :: rest =>
    match matchLens r (c :: rest) with
    | n :: _ => some (List.take n (c :: rest))
    | [] => searchAux r rest

/-- Python `\S` (`[^\s]`) over the ASCII whitespace set. -/
def nonSpace (c : Char) : Bool :=
  !(c = ' ' || c = '\t' || c = '\n' || c = '\r' || c = Char.ofNat 11 || c = Char.ofNat 12)

/-- bot.py line 20: the playlist-URL pattern, scheme then non-space run
ending in the playlist suffix. -/
def M3U8_REGEX : RE :=
  .cat (.lit "http".data)
    (.cat (.opt (.lit "s".data))
      (.cat (.lit "://".data)
        (.cat (.plusCl nonSpace) (.lit ".m3u8".data))))

/-- bot.py line 21: the direct-media pattern, scheme, non-space run, one of
seven container suffixes, then an optional query string. -/
def VIDEO_REGEX : RE :=
  .cat (.lit "http".data)
    (.cat (.opt (.lit "s".data))
      (.cat (.lit "://".data)
        (.cat (.plusCl nonSpace)
          (.cat
            (.alt (.lit ".mp4".data)
              (.alt (.lit ".mov".data)
                (.alt (.lit ".webm".data)
                  (.alt (.lit ".mkv".data)
                    (.alt (.lit ".avi".data)
                      (.alt (.lit ".flv".data) (.lit ".ts".data)))))))
            (.opt (.cat (.lit "?".data) (.starCl nonSpace)))))))

/-- `M3U8_REGEX.search(text)` of bot.py line 108. -/
def m3u8Search (text : String) : Option String :=
  (searchAux M3U8_REGEX text.data).map String.mk

/-- `VIDEO_REGEX.search(text)` of bot.py line 109. -/
def videoSearch (text : String) : Option String :=
  (searchAux VIDEO_REGEX text.data).map String.mk

/-- bot.py line 110: the playlist match wins when present, else the direct
match, else no URL. -/
def classifyUrl (text : String) : Option String :=
  match m3u8Search text with
  | some u => some u
  | none => videoSearch text

/-! ## Playlist parsing (bot.py lines 52-58) -/

/-- The loop condition of line 56: `if line and not line.startswith(...)`,
Python truthiness of a string being non-emptiness. -/
def segmentLines (body : String) : List String :=
  (splitlines body).filter (fun l => !(l = "") && !(strStartsWith l "#"))

/-- Line 57: a line is used verbatim when it starts with the four
characters `http`, otherwise it is appended to the base URL. -/
def resolveLine (base line : String) : String :=
  if strStartsWith line "http" then line else base ++ "/" ++ line

/-- Lines 53-58: the fully resolved segment URLs, in playlist line order. -/
def segments (m3u8Url body : String) : List String :=
  (segmentLines body).map (resolveLine (rsplitBase m3u8Url))

/-- A character allowed inside a URI scheme name. -/
def schemeChar (c : Char) : Bool :=
  c.isAlphanum || c = '+' || c = '-' || c = '.'

/-- Modelled from the spec: the words of section 4.3 say a reference is
used verbatim when it "already has a scheme".  A reference has a scheme
when it begins with a nonempty letter-led scheme name followed by the
`://` separator (the only scheme form the spec uses).  This definition
follows the spec wording and is compared against the literal `http`
prefix test the code performs. -/
def specHasScheme (s : String) : Bool :=
  let pre := s.data.takeWhile schemeChar
  !pre.isEmpty && (pre.headD ' ').isAlpha &&
    List.isPrefixOf "://".data (s.data.drop pre.length)

/-- Python format `idx:05d`: decimal digits zero-padded to width 5. -/
def pad5 (n : Nat) : String :=
  String.mk (List.replicate (5 - (Nat.toDigits 10 n).length) '0' ++ Nat.toDigits 10 n)

/-- Line 63: `os.path.join(workdir, seg_<idx:05d>.ts)`. -/
def segPath (workdir : String) (idx : Nat) : String :=
  workdir ++ "/seg_" ++ pad5 idx ++ ".ts"

/-! ## Oracle world and observable events

The effectful layer is embedded as functions from an oracle `World`
(outcomes of HTTP GETs, of the ffmpeg subprocess, of `os.path.getsize`
and of `reply_video`) to a list of observable events plus an
`Except`-valued result mirroring Python exception propagation. -/

structure World where
  fetch : String → Except String String
  ffmpeg : List String → String → Except String Unit
  size : String → Nat
  upload : String → Except String Unit

/-- Whether an oracle outcome is a success. -/
def exOk : Except String α → Bool
  | Except.ok _ => true
  | Except.error _ => false

inductive Ev where
  | reply (text : String)
  | statusEdit (text : String)
  | fetch (url dest : String)
  | fetchText (url : String)
  | manifestWrite (path content : String)
  | mergeInvoke (segs : List String) (out : String)
  | manifestRemove (path : String)
  | sizeQuery (path : String)
  | upload (path : String)
  | statusDelete
  | destroyScratch
  deriving DecidableEq

/-- Sequencing with exception propagation: once a step raises, later
steps run no code and add no events. -/
def ebind : List Ev × Except String α → (α → List Ev × Except String β) →
    List Ev × Except String β
  | (evs, Except.error e), _ => (evs, Except.error e)
  | (evs, Except.ok a), f => (evs ++ (f a).1, (f a).2)

@[simp] theorem ebind_error (evs : List Ev) (e : String)
    (f : α → List Ev × Except String β) :
    ebind (evs, Except.error e) f = (evs, Except.error e) := rfl

@[simp] theorem ebind_ok (evs : List Ev) (a : α)
    (f : α → List Ev × Except String β) :
    ebind (evs, Except.ok a) f = (evs ++ (f a).1, (f a).2) := rfl

/-! ## The four effectful functions of bot.py -/

/-- Lines 34-45, `download_file`: one GET streamed to `dest`; a bad
status or interrupted stream raises, success returns `dest`.  (The
per-chunk progress callback is modelled separately by `progressCalls`;
it edits a chat message and touches no scratch files.) -/
def download_file (w : World) (url dest : String) : List Ev × Except String String :=
  ([Ev.fetch url dest],
    match w.fetch url with
    | Except.ok _ => Except.ok dest
    | Except.error e => Except.error e)

/-- Lines 60-67: the sequential segment loop, `idx` being the enumeration
counter.  Each iteration awaits `download_file` before the next starts. -/
def fetchSegs (w : World) (workdir : String) : Nat → List String → List Ev × Except String (List String)
  | _, [] => ([], Except.ok [])
  | idx, u :: rest =>
    match download_file w u (segPath workdir idx) with
    | (evs, Except.error e) => (evs, Except.error e)
    | (evs, Except.ok p) =>
      match fetchSegs w workdir (idx + 1) rest with
      | (evs2, Except.error e) => (evs ++ evs2, Except.error e)
      | (evs2, Except.ok ps) => (evs ++ evs2, Except.ok (p :: ps))

/-- Lines 47-68, `download_m3u8`: fetch the playlist text, parse it, then
fetch every segment in order, returning the local paths in order. -/
def download_m3u8 (w : World) (m3u8Url workdir : String) : List Ev × Except String (List String) :=
  match w.fetch m3u8Url with
  | Except.error e => ([Ev.fetchText m3u8Url], Except.error e)
  | Except.ok body =>
    match fetchSegs w workdir 0 (segments m3u8Url body) with
    | (evs, r) => (Ev.fetchText m3u8Url :: evs, r)

/-- A single-quote character, kept out of string literals. -/
def sq : String := String.mk [Char.ofNat 39]

/-- Line 75: one manifest entry, `file` then the quoted path. -/
def manifestLine (seg : String) : String :=
  "file " ++ sq ++ seg ++ sq

/-- Lines 73-75: the manifest is one entry per segment, each
newline-terminated, in list order. -/
def manifestContent : List String → String
  | [] => ""
  | seg :: rest => manifestLine seg ++ "\n" ++ manifestContent rest

/-- Lines 70-88, `merge_segments_ffmpeg`: write the manifest next to the
output, run ffmpeg over it, raise with the captured standard error on a
non-zero exit, and remove the manifest only on success. -/
def merge_segments_ffmpeg (w : World) (segment_files : List String) (output_path : String) :
    List Ev × Except String String :=
  match w.ffmpeg segment_files output_path with
  | Except.error stderr =>
    ([Ev.manifestWrite (output_path ++ ".txt") (manifestContent segment_files),
      Ev.mergeInvoke segment_files output_path],
     Except.error ("ffmpeg failed: " ++ stderr))
  | Except.ok _ =>
    ([Ev.manifestWrite (output_path ++ ".txt") (manifestContent segment_files),
      Ev.mergeInvoke segment_files output_path,
      Ev.manifestRemove (output_path ++ ".txt")],
     Except.ok output_path)

/-! ## Size gate and orchestrator (bot.py lines 17 and 105-146) -/

/-- Line 17: `2 * 1024 * 1024 * 1024` bytes. -/
def TG_MAX_SIZE : Nat := 2 * 1024 * 1024 * 1024

inductive GateResult where
  | allowed : GateResult
  | rejected (actualSize limitBytes : Nat) : GateResult
  deriving DecidableEq

/-- Lines 138-141 as a pure function of the queried size: the strictly
greater-than comparison against the fixed limit. -/
def sizeGate (size : Nat) : GateResult :=
  if size > TG_MAX_SIZE then GateResult.rejected size TG_MAX_SIZE else GateResult.allowed

/-- Line 140 message (the apostrophe spliced in via `sq`). -/
def sizeWarnMsg : String :=
  "⚠️ The merged video exceeds Telegram" ++ sq ++ "s 2GB limit. Cannot upload."

/-- Line 143: `reply_video`; a platform failure raises like any other. -/
def uploadStep (w : World) (path : String) : List Ev × Except String Unit :=
  ([Ev.upload path],
    match w.upload path with
    | Except.ok _ => Except.ok ()
    | Except.error e => Except.error e)

/-- Lines 117-144: the body of the `with TemporaryDirectory` block for a
classified URL — branch on the `.m3u8` suffix, produce the merged file,
query its size, gate, upload, delete the status message. -/
def pipelineBody (w : World) (url workdir : String) : List Ev × Except String Unit :=
  ebind
    (if strEndsWith url ".m3u8" then
      ebind ([Ev.statusEdit "📥 Downloading playlist and segments..."], Except.ok ())
        (fun _ => ebind (download_m3u8 w url workdir)
          (fun seg_files =>
            ebind ([Ev.statusEdit "🔄 Merging segments with ffmpeg..."], Except.ok ())
              (fun _ => merge_segments_ffmpeg w seg_files (workdir ++ "/output.mp4"))))
    else
      ebind ([Ev.statusEdit "📥 Downloading video file..."], Except.ok ())
        (fun _ => download_file w url (workdir ++ "/output.mp4")))
    (fun merged_path =>
      if w.size merged_path > TG_MAX_SIZE then
        ([Ev.sizeQuery merged_path, Ev.statusEdit sizeWarnMsg], Except.ok ())
      else
        ebind ([Ev.sizeQuery merged_path, Ev.statusEdit "⬆️ Uploading to Telegram..."], Except.ok ())
          (fun _ => ebind (uploadStep w merged_path)
            (fun _ => ([Ev.statusDelete], Except.ok ()))))

/-- Lines 105-146, `handle_message`: classify; on no URL return silently
with no reply.  Otherwise reply, run the pipeline inside the temporary
directory (destroyed on every exit path, before the `except` handler),
and turn any raised error into one final status edit. -/
def handleMessage (w : World) (workdir text : String) : List Ev :=
  match classifyUrl text with
  | none => []
  | some url =>
    Ev.reply "🔗 Processing your request..." ::
      (pipelineBody w url workdir).1 ++ [Ev.destroyScratch] ++
        (match (pipelineBody w url workdir).2 with
         | Except.ok _ => []
         | Except.error e => [Ev.statusEdit ("❌ Error: " ++ e)])

/-! ## Direct-download progress reporting (bot.py lines 34-44 and 133-135) -/

/-- Line 37: `int(resp.headers.get(..., 0))` — an absent content length
is read as 0. -/
def progressTotal (contentLength : Option Nat) : Nat :=
  contentLength.getD 0

/-- Round `p / q` (for positive `q`) to the nearest integer, ties going
to the even neighbour — the IEEE rounding mode. -/
def nearestEven (p q : Nat) : Nat :=
  let d := p / q
  let r := p % q
  if 2 * r < q then d
  else if q < 2 * r then d + 1
  else if d % 2 = 0 then d else d + 1

/-- Scale the fraction p/q by powers of two until it lies in the 53-bit
mantissa window [2^52, 2^53); `e` tracks the binary exponent of the last
mantissa bit.  Fuel-based (200 doublings cover every byte count the
program can see); a zero numerator exhausts the fuel and yields
mantissa 0, the double 0.0. -/
def scaleInto : Nat → Nat → Nat → Int → Nat × Nat × Int
  | 0, p, q, e => (p, q, e)
  | fuel + 1, p, q, e =>
    if 2 ^ 53 * q ≤ p then scaleInto fuel p (2 * q) (e + 1)
    else if p < 2 ^ 52 * q then scaleInto fuel (2 * p) q (e - 1)
    else (p, q, e)

/-- The IEEE binary64 double nearest to the rational p/q (round to
nearest, ties to even; normal range — ample for byte counts), as a
mantissa-exponent pair m·2^e, with the carry when rounding reaches
2^53. -/
def roundF (p q : Nat) : Nat × Int :=
  match scaleInto 200 p q 0 with
  | (p2, q2, e) =>
    let m := nearestEven p2 q2
    if m = 2 ^ 53 then (2 ^ 52, e + 1) else (m, e)

/-- The double product `x * 100` (100 being exactly representable): the
exact product rounded back to 53 bits. -/
def mul100F : Nat × Int → Nat × Int
  | (m, e) =>
    match roundF (m * 100) 1 with
    | (m2, e2) => (m2, e2 + e)

/-- Python `int(...)` on a non-negative double: truncation toward
zero. -/
def truncF : Nat × Int → Nat
  | (m, Int.ofNat k) => m * 2 ^ k
  | (m, Int.negSucc k) => m / 2 ^ (k + 1)

/-- Line 134, `int(done / total * 100) if total else 0`, with the
source's IEEE binary64 arithmetic: the int-to-double conversions are
exact below 2^53, the division and the multiplication by 100 each round
to nearest (ties to even), and `int` truncates toward zero. -/
def filePercentF (done total : Nat) : Nat :=
  if total = 0 then 0 else truncF (mul100F (roundF done total))

/-- Cumulative byte counts after each chunk write (line 42). -/
def cumSums (chunkLens : List Nat) : List Nat :=
  (chunkLens.foldl (fun acc n => ((acc.headD 0 + n) :: acc)) []).reverse

/-- Lines 42-44: the (done, total) pairs passed to the progress callback,
one per chunk, with the same header-derived total every time. -/
def progressCalls (chunkLens : List Nat) (contentLength : Option Nat) : List (Nat × Nat) :=
  (cumSums chunkLens).map (fun d => (d, progressTotal contentLength))

/-! ## Concrete oracle worlds used to evaluate the theorems -/

/-- Every remote fetch succeeds, ffmpeg succeeds, the artifact is tiny,
the upload succeeds. -/
def wAllOk : World :=
  { fetch := fun _ => Except.ok ""
    ffmpeg := fun _ _ => Except.ok ()
    size := fun _ => 0
    upload := fun _ => Except.ok () }

/-- A three-segment playlist at `http://h/p/list.m3u8`; all fetches
succeed. -/
def wPlaylist3 : World :=
  { wAllOk with
    fetch := fun u =>
      if u = "http://h/p/list.m3u8" then
        Except.ok "#EXTM3U\nseg0.ts\nhttp://other/seg1.ts\nseg2.ts"
      else Except.ok "" }

/-- A three-segment playlist whose second segment fails to fetch. -/
def wSegFail : World :=
  { wAllOk with
    fetch := fun u =>
      if u = "http://h/p/list.m3u8" then Except.ok "s0.ts\ns1.ts\ns2.ts"
      else if u = "http://h/p/s1.ts" then Except.error "boom"
      else Except.ok "" }

/-- An empty playlist; ffmpeg and the upload succeed. -/
def wEmptyOk : World :=
  { wAllOk with
    fetch := fun u =>
      if u = "http://h/p/list.m3u8" then Except.ok "#EXTM3U\n" else Except.ok ""
    size := fun _ => 100 }

/-- An empty playlist and an ffmpeg that rejects its empty manifest. -/
def wEmptyMergeFail : World :=
  { wEmptyOk with ffmpeg := fun _ _ => Except.error "no inputs" }

/-- All fetches succeed but the artifact is one byte over the limit. -/
def wTooBig : World :=
  { wAllOk with size := fun _ => TG_MAX_SIZE + 1 }

/-! ## Helper lemmas about the embedded pipeline -/

theorem mem_ebind_left (x : List Ev × Except String α)
    (f : α → List Ev × Except String β) (e : Ev) (he : e ∈ x.1) :
    e ∈ (ebind x f).1 := by
  obtain ⟨evs, r⟩ := x
  cases r with
  | error s => simpa using he
  | ok a => exact List.mem_append_left _ (by simpa using he)

theorem mem_ebind_right (x : List Ev × Except String α)
    (f : α → List Ev × Except String β) (a : α) (hx : x.2 = Except.ok a)
    (e : Ev) (he : e ∈ (f a).1) : e ∈ (ebind x f).1 := by
  obtain ⟨evs, r⟩ := x
  cases r with
  | error s => simp at hx
  | ok b =>
    have hab : b = a := by simpa using hx
    subst hab
    exact List.mem_append_right _ he

theorem ebind_err (x : List Ev × Except String α)
    (f : α → List Ev × Except String β) (s : String)
    (hx : x.2 = Except.error s) : ebind x f = (x.1, Except.error s) := by
  obtain ⟨evs, r⟩ := x
  cases r with
  | error t => simp at hx; subst hx; rfl
  | ok b => simp at hx

theorem mem_handleMessage_of_mem_pipeline (w : World) (workdir text url : String)
    (hcl : classifyUrl text = some url) (e : Ev)
    (he : e ∈ (pipelineBody w url workdir).1) : e ∈ handleMessage w workdir text := by
  unfold handleMessage
  simp only [hcl]
  exact List.mem_cons_of_mem _ (List.mem_append_left _ (List.mem_append_left _ he))

theorem err_edit_mem_handleMessage (w : World) (workdir text url s : String)
    (hcl : classifyUrl text = some url)
    (hpb : (pipelineBody w url workdir).2 = Except.error s) :
    Ev.statusEdit ("❌ Error: " ++ s) ∈ handleMessage w workdir text := by
  unfold handleMessage
  simp only [hcl, hpb]
  exact List.mem_cons_of_mem _ (List.mem_append_right _ (by simp))

/-- When every segment fetch succeeds, the loop of lines 60-67 produces
one fetch event per segment, in playlist order, and returns the
index-ordered local paths. -/
theorem fetchSegs_ok (w : World) (wd : String) :
    ∀ (us : List String) (n : Nat),
      (∀ u ∈ us, exOk (w.fetch u) = true) →
      fetchSegs w wd n us =
        ((List.enumFrom n us).map (fun p => Ev.fetch p.2 (segPath wd p.1)),
         Except.ok ((List.enumFrom n us).map (fun p => segPath wd p.1))) := by
  intro us
  induction us with
  | nil => intro n _; rfl
  | cons u rest ih =>
    intro n h
    have hu : exOk (w.fetch u) = true := h u (List.mem_cons_self u rest)
    cases hfu : w.fetch u with
    | error e => rw [hfu] at hu; simp [exOk] at hu
    | ok b =>
      have hrest : ∀ x ∈ rest, exOk (w.fetch x) = true :=
        fun x hx => h x (List.mem_cons_of_mem u hx)
      simp [fetchSegs, download_file, hfu, ih (n + 1) hrest]

/-- When the fetch of segment `k` (0-based) fails and all earlier ones
succeed, the loop stops at the failed attempt: exactly the first `k + 1`
fetch events occur and the error propagates. -/
theorem fetchSegs_err (w : World) (wd e : String) :
    ∀ (us : List String) (k n : Nat),
      k < us.length →
      (∀ j, j < k → exOk (w.fetch (us.getD j "")) = true) →
      w.fetch (us.getD k "") = Except.error e →
      fetchSegs w wd n us =
        ((List.enumFrom n (us.take (k + 1))).map (fun p => Ev.fetch p.2 (segPath wd p.1)),
         Except.error e) := by
  intro us
  induction us with
  | nil => intro k n hk; exact absurd hk (by simp)
  | cons u rest ih =>
    intro k n hk hbefore hfail
    cases k with
    | zero =>
      have hfu : w.fetch u = Except.error e := by simpa using hfail
      simp [fetchSegs, download_file, hfu]
    | succ k =>
      have hu : exOk (w.fetch u) = true := by
        have := hbefore 0 (Nat.succ_pos k)
        simpa using this
      cases hfu : w.fetch u with
      | error e2 => rw [hfu] at hu; simp [exOk] at hu
      | ok b =>
        have hrest := ih k (n + 1) (by simpa using hk)
          (fun j hj => by simpa using hbefore (j + 1) (Nat.succ_lt_succ hj))
          (by simpa using hfail)
        simp [fetchSegs, download_file, hfu, hrest]

/-- Scratch destruction is not an event of any inner pipeline step. -/
theorem destroy_not_in_ebind (x : List Ev × Except String α)
    (f : α → List Ev × Except String β)
    (hx : Ev.destroyScratch ∉ x.1) (hf : ∀ a, Ev.destroyScratch ∉ (f a).1) :
    Ev.destroyScratch ∉ (ebind x f).1 := by
  obtain ⟨evs, r⟩ := x
  cases r with
  | error e => simpa using hx
  | ok a =>
    simp only [ebind, List.mem_append]
    intro hmem
    rcases hmem with hmem | hmem
    · exact hx (by simpa using hmem)
    · exact hf a hmem

theorem destroy_not_in_fetchSegs (w : World) (wd : String) :
    ∀ (us : List String) (n : Nat), Ev.destroyScratch ∉ (fetchSegs w wd n us).1 := by
  intro us
  induction us with
  | nil => intro n; simp [fetchSegs]
  | cons u rest ih =>
    intro n
    cases hfu : w.fetch u with
    | error e => simp [fetchSegs, download_file, hfu]
    | ok b =>
      cases hrec : fetchSegs w wd (n + 1) rest with
      | mk evs2 r2 =>
        have hni : Ev.destroyScratch ∉ evs2 := by
          have := ih (n + 1); rw [hrec] at this; simpa using this
        cases r2 with
        | error e => simp [fetchSegs, download_file, hfu, hrec]; simpa using hni
        | ok ps => simp [fetchSegs, download_file, hfu, hrec]; simpa using hni

theorem destroy_not_in_download_m3u8 (w : World) (url wd : String) :
    Ev.destroyScratch ∉ (download_m3u8 w url wd).1 := by
  cases hf : w.fetch url with
  | error e => simp [download_m3u8, hf]
  | ok body =>
    cases hrec : fetchSegs w wd 0 (segments url body) with
    | mk evs r =>
      have hni : Ev.destroyScratch ∉ evs := by
        have := destroy_not_in_fetchSegs w wd (segments url body) 0
        rw [hrec] at this; simpa using this
      simp [download_m3u8, hf, hrec]
      simpa using hni

theorem destroy_not_in_merge (w : World) (segs : List String) (out : String) :
    Ev.destroyScratch ∉ (merge_segments_ffmpeg w segs out).1 := by
  cases hff : w.ffmpeg segs out with
  | error e => simp [merge_segments_ffmpeg, hff]
  | ok u => simp [merge_segments_ffmpeg, hff]

theorem destroy_not_in_pipelineBody (w : World) (url wd : String) :
    Ev.destroyScratch ∉ (pipelineBody w url wd).1 := by
  unfold pipelineBody
  apply destroy_not_in_ebind
  · cases hm3 : strEndsWith url ".m3u8" with
    | true =>
      rw [if_pos rfl]
      apply destroy_not_in_ebind
      · simp
      intro a
      apply destroy_not_in_ebind
      · exact destroy_not_in_download_m3u8 w url wd
      intro segs
      apply destroy_not_in_ebind
      · simp
      intro b
      exact destroy_not_in_merge w segs (wd ++ "/output.mp4")
    | false =>
      rw [if_neg (by decide)]
      apply destroy_not_in_ebind
      · simp
      intro a
      simp [download_file]
  · intro merged
    by_cases hsz : w.size merged > TG_MAX_SIZE
    · simp [hsz]
    · simp only [hsz, if_false]
      apply destroy_not_in_ebind
      · simp
      intro a
      apply destroy_not_in_ebind
      · simp [uploadStep]
      intro b
      simp

/-- A line of non-break characters followed by a line feed contributes
exactly one entry to `splitlines`. -/
theorem splitlinesAux_line (rest : List Char) :
    ∀ (l acc : List Char),
      l.all (fun c => !(c = '\n') && !(c = '\r')) = true →
      splitlinesAux (l ++ '\n' :: rest) acc false =
        String.mk (acc.reverse ++ l) :: splitlinesAux rest [] false := by
  intro l
  induction l with
  | nil => intro acc _; simp [splitlinesAux]
  | cons c l ih =>
    intro acc hall
    simp only [List.all_cons, Bool.and_eq_true, Bool.not_eq_true', decide_eq_false_iff_not] at hall
    obtain ⟨⟨hc1, hc2⟩, hl⟩ := hall
    have hstep : splitlinesAux ((c :: l) ++ '\n' :: rest) acc false =
        splitlinesAux (l ++ '\n' :: rest) (c :: acc) false := by
      simp [splitlinesAux, hc1, hc2]
    rw [hstep, ih (c :: acc) (by simp only [List.all_eq_true] at hl ⊢; exact fun x hx => hl x hx)]
    simp

/-- Characters of one manifest entry: never a line break when the path
has none. -/
theorem manifestLine_no_break (s : String)
    (hs : s.data.all (fun c => !(c = '\n') && !(c = '\r')) = true) :
    (manifestLine s).data.all (fun c => !(c = '\n') && !(c = '\r')) = true := by
  have hdata : (manifestLine s).data =
      "file ".data ++ sq.data ++ s.data ++ sq.data := by
    simp [manifestLine, sq]
  rw [hdata]
  simp only [List.all_append, Bool.and_eq_true]
  refine ⟨⟨⟨by decide, by decide⟩, hs⟩, by decide⟩

/-- The manifest written by lines 73-75 splits back into exactly one
`file` entry per segment, in order. -/
theorem splitlines_manifest :
    ∀ segs : List String,
      (∀ s ∈ segs, s.data.all (fun c => !(c = '\n') && !(c = '\r')) = true) →
      splitlines (manifestContent segs) = segs.map manifestLine := by
  intro segs
  induction segs with
  | nil => intro _; rfl
  | cons s segs ih =>
    intro h
    have hs := h s (List.mem_cons_self s segs)
    have hdata : (manifestContent (s :: segs)).data =
        (manifestLine s).data ++ '\n' :: (manifestContent segs).data := by
      show ((manifestLine s ++ "\n") ++ manifestContent segs).data = _
      simp
    unfold splitlines
    rw [hdata, splitlinesAux_line _ _ [] (manifestLine_no_break s hs)]
    have htail := ih (fun x hx => h x (List.mem_cons_of_mem s hx))
    unfold splitlines at htail
    simp only [List.reverse_nil, List.nil_append, List.map_cons]
    exact congrArg (List.cons (manifestLine s)) htail

/-! ## The claims -/

/-- Claim C1: for every message text in which both the playlist-URL
pattern and the direct-media-URL pattern match somewhere, the classifier
returns the playlist URL — the first playlist-pattern match — regardless
of the relative positions of the two matches; if neither pattern
matches, no URL is returned and the handler emits nothing at all (no
reply). -/
theorem claim1_classifier_precedence (w : World) (workdir text : String) :
    ((m3u8Search text).isSome = true → (videoSearch text).isSome = true →
      classifyUrl text = m3u8Search text) ∧
    (m3u8Search text = none → videoSearch text = none →
      classifyUrl text = none ∧ handleMessage w workdir text = []) := by
  constructor
  · intro hm _
    unfold classifyUrl
    cases hs : m3u8Search text with
    | none => rw [hs] at hm; simp at hm
    | some u => rfl
  · intro hm hv
    have hcl : classifyUrl text = none := by unfold classifyUrl; rw [hm, hv]
    refine ⟨hcl, ?_⟩
    unfold handleMessage
    rw [hcl]

/-- Witness for C1 at a text holding a direct-media URL before a
playlist URL: the classifier still returns the playlist match. -/
theorem claim1_witness :
    classifyUrl "get http://a/v.mp4 then http://b/c.m3u8 now" =
      m3u8Search "get http://a/v.mp4 then http://b/c.m3u8 now" :=
  (claim1_classifier_precedence wAllOk "wd"
    "get http://a/v.mp4 then http://b/c.m3u8 now").1 (by decide) (by decide)

/-- Claim C2: the delivery gate compares the measured size strictly
against the fixed limit of 2·1024³ bytes — exactly the limit is allowed,
one byte more (or anything larger) is rejected; in the pipeline a
rejected size yields the size-limit warning and no upload event, the
gate itself being a pure function of the queried size. -/
theorem claim2_size_gate :
    TG_MAX_SIZE = 2 * 1024 * 1024 * 1024 ∧
    sizeGate TG_MAX_SIZE = GateResult.allowed ∧
    sizeGate (TG_MAX_SIZE + 1) = GateResult.rejected (TG_MAX_SIZE + 1) TG_MAX_SIZE ∧
    (∀ s : Nat, sizeGate s = GateResult.allowed ↔ s ≤ TG_MAX_SIZE) ∧
    (∀ s : Nat, TG_MAX_SIZE < s → sizeGate s = GateResult.rejected s TG_MAX_SIZE) ∧
    (∀ (w : World) (workdir text url : String),
      classifyUrl text = some url → strEndsWith url ".m3u8" = false →
      exOk (w.fetch url) = true →
      TG_MAX_SIZE < w.size (workdir ++ "/output.mp4") →
      Ev.statusEdit sizeWarnMsg ∈ handleMessage w workdir text ∧
      ∀ p, Ev.upload p ∉ handleMessage w workdir text) := by
  refine ⟨rfl, by simp [sizeGate], by simp [sizeGate], ?_, ?_, ?_⟩
  · intro s
    unfold sizeGate
    split
    · constructor
      · intro h; exact absurd h (by simp)
      · omega
    · constructor
      · intro _; omega
      · intro _; rfl
  · intro s hs
    unfold sizeGate
    rw [if_pos hs]
  · intro w workdir text url hcl hm3 hfetch hsz
    cases hfu : w.fetch url with
    | error e => rw [hfu] at hfetch; simp [exOk] at hfetch
    | ok b =>
      have hpb : pipelineBody w url workdir =
          ([Ev.statusEdit "📥 Downloading video file...",
            Ev.fetch url (workdir ++ "/output.mp4"),
            Ev.sizeQuery (workdir ++ "/output.mp4"), Ev.statusEdit sizeWarnMsg],
           Except.ok ()) := by
        unfold pipelineBody
        rw [hm3, if_neg (by decide)]
        simp [download_file, hfu, hsz]
      constructor
      · unfold handleMessage
        simp [hcl, hpb]
      · intro p
        unfold handleMessage
        simp [hcl, hpb]

/-- Witness for C2 in a world whose artifact is one byte above the
limit: the handler emits the warning and never an upload event. -/
theorem claim2_witness :
    Ev.statusEdit sizeWarnMsg ∈ handleMessage wTooBig "wd" "http://h/v.mp4" ∧
    ∀ p, Ev.upload p ∉ handleMessage wTooBig "wd" "http://h/v.mp4" :=
  claim2_size_gate.2.2.2.2.2 wTooBig "wd" "http://h/v.mp4" "http://h/v.mp4"
    (by decide) (by decide) (by decide) (by decide)

/-- Claim C9 counterexample: at the reachable callback (29, 100) — a
29-byte first chunk under an advertised content length of 100 — the
program computes int(29/100*100) in binary64 arithmetic, where 29/100
rounds to just below 0.29 and the product to just below 29.0, and
reports 28; the exact floor of done·100/total is 29, so the claimed
floor property is false of the code at this input. -/
theorem claim9_counterexample :
    (29, 100) ∈ progressCalls [29, 71] (some 100) ∧
    filePercentF 29 100 = 28 ∧
    29 * 100 / 100 = 29 ∧
    filePercentF 29 100 ≠ 29 * 100 / 100 := by decide

/-- Claim C9 amended: the progress computation is total — every
callback receives the header-derived total; an absent or zero content
length passes total 0 and reports percent 0 with the division never
executed; with a positive total the report is int(done/total*100) in
the program's binary64 arithmetic, which can land one below the exact
floor (done 29 of total 100 reports 28 where the floor is 29) though it
agrees on most inputs (done 1 of total 3 reports the floor, 33). -/
theorem claim9_amended (chunkLens : List Nat) (contentLength : Option Nat)
    (d t : Nat) (hmem : (d, t) ∈ progressCalls chunkLens contentLength) :
    t = progressTotal contentLength ∧
    (contentLength = none ∨ contentLength = some 0 → t = 0 ∧ filePercentF d t = 0) ∧
    (∀ n, contentLength = some n → t = n) ∧
    filePercentF 29 100 = 28 ∧ 29 * 100 / 100 = 29 ∧
    filePercentF 1 3 = 33 ∧ 1 * 100 / 3 = 33 := by
  have ht : t = progressTotal contentLength := by
    unfold progressCalls at hmem
    obtain ⟨a, _, heq⟩ := List.mem_map.mp hmem
    simp only [Prod.mk.injEq] at heq
    exact heq.2.symm
  refine ⟨ht, ?_, ?_, by decide, by decide, by decide, by decide⟩
  · intro hcl
    have ht0 : t = 0 := by
      rcases hcl with hcl | hcl <;> rw [ht, hcl] <;> rfl
    exact ⟨ht0, by rw [ht0]; rfl⟩
  · intro n hcl
    rw [ht, hcl]
    rfl

/-- Witness for the amended C9 at the concrete callback (29, 100). -/
theorem claim9_witness :
    (100 : Nat) = progressTotal (some 100) ∧
    (some 100 = none ∨ some 100 = some 0 → (100 : Nat) = 0 ∧ filePercentF 29 100 = 0) ∧
    (∀ n, some 100 = some n → (100 : Nat) = n) ∧
    filePercentF 29 100 = 28 ∧ 29 * 100 / 100 = 29 ∧
    filePercentF 1 3 = 33 ∧ 1 * 100 / 3 = 33 :=
  claim9_amended [29, 71] (some 100) 29 100 (by decide)

/-- Claim C10: the resolver's test for "already has a scheme" is the
literal four-character prefix `http`: every line beginning with `http`
(even the malformed `httpx/seg.ts`, which has no scheme) is used
verbatim, while `ftp://h/seg.ts`, which does have a scheme, is
base-joined as if it were a relative reference. -/
theorem claim10_http_literal_test (base line : String) :
    (strStartsWith line "http" = true → resolveLine base line = line) ∧
    (strStartsWith line "http" = false → resolveLine base line = base ++ "/" ++ line) ∧
    (strStartsWith "httpx/seg.ts" "http" = true ∧ specHasScheme "httpx/seg.ts" = false ∧
      resolveLine "http://h/p" "httpx/seg.ts" = "httpx/seg.ts") ∧
    (specHasScheme "ftp://h/seg.ts" = true ∧ strStartsWith "ftp://h/seg.ts" "http" = false ∧
      resolveLine "http://h/p" "ftp://h/seg.ts" = "http://h/p/ftp://h/seg.ts") := by
  refine ⟨?_, ?_, by decide, by decide⟩
  · intro h; simp [resolveLine, h]
  · intro h; simp [resolveLine, h]

/-- Witness for C10: a relative line is base-joined. -/
theorem claim10_witness :
    resolveLine "http://h/p" "seg0.ts" = "http://h/p" ++ "/" ++ "seg0.ts" :=
  (claim10_http_literal_test "http://h/p" "seg0.ts").2.1 (by decide)

/-- Claim C3: when every segment fetch succeeds, the resolver performs
the fetches one per segment in playlist order (the event list is totally
ordered, and the sequential embedding makes fetch k+1 begin only after
fetch k returns), returns exactly N local paths whose k-th entry is the
k-th indexed scratch filename, and the concatenation step is invoked
with exactly that list. -/
theorem claim3_order_preservation (w : World) (workdir text url body : String)
    (hcl : classifyUrl text = some url) (hm3 : strEndsWith url ".m3u8" = true)
    (hpl : w.fetch url = Except.ok body)
    (hok : ∀ u ∈ segments url body, exOk (w.fetch u) = true) :
    download_m3u8 w url workdir =
      (Ev.fetchText url ::
        (List.enumFrom 0 (segments url body)).map
          (fun p => Ev.fetch p.2 (segPath workdir p.1)),
       Except.ok ((List.enumFrom 0 (segments url body)).map (fun p => segPath workdir p.1))) ∧
    ((List.enumFrom 0 (segments url body)).map (fun p => segPath workdir p.1)).length =
      (segments url body).length ∧
    (∀ k, k < (segments url body).length →
      ((List.enumFrom 0 (segments url body)).map (fun p => segPath workdir p.1)).getD k "" =
        segPath workdir k) ∧
    Ev.mergeInvoke
      ((List.enumFrom 0 (segments url body)).map (fun p => segPath workdir p.1))
      (workdir ++ "/output.mp4") ∈ handleMessage w workdir text := by
  have hfs := fetchSegs_ok w workdir (segments url body) 0 hok
  have hdm : download_m3u8 w url workdir =
      (Ev.fetchText url ::
        (List.enumFrom 0 (segments url body)).map
          (fun p => Ev.fetch p.2 (segPath workdir p.1)),
       Except.ok ((List.enumFrom 0 (segments url body)).map (fun p => segPath workdir p.1))) := by
    simp only [download_m3u8, hpl, hfs]
  refine ⟨hdm, by simp, ?_, ?_⟩
  · intro k hk
    rw [List.getD_eq_getElem _ _ (by simpa using hk)]
    simp [List.getElem_enumFrom]
  · apply mem_handleMessage_of_mem_pipeline w workdir text url hcl
    unfold pipelineBody
    rw [hm3, if_pos rfl]
    apply mem_ebind_left
    apply mem_ebind_right _ _ () rfl
    apply mem_ebind_right _ _
      ((List.enumFrom 0 (segments url body)).map (fun p => segPath workdir p.1))
      (by rw [hdm])
    apply mem_ebind_right _ _ () rfl
    cases hff : w.ffmpeg
        ((List.enumFrom 0 (segments url body)).map (fun p => segPath workdir p.1))
        (workdir ++ "/output.mp4") with
    | error s => simp [merge_segments_ffmpeg, hff]
    | ok u => simp [merge_segments_ffmpeg, hff]

/-- Witness for C3 on a concrete three-segment playlist. -/
theorem claim3_witness :
    download_m3u8 wPlaylist3 "http://h/p/list.m3u8" "wd" =
      (Ev.fetchText "http://h/p/list.m3u8" ::
        (List.enumFrom 0 (segments "http://h/p/list.m3u8"
          "#EXTM3U\nseg0.ts\nhttp://other/seg1.ts\nseg2.ts")).map
          (fun p => Ev.fetch p.2 (segPath "wd" p.1)),
       Except.ok ((List.enumFrom 0 (segments "http://h/p/list.m3u8"
          "#EXTM3U\nseg0.ts\nhttp://other/seg1.ts\nseg2.ts")).map
          (fun p => segPath "wd" p.1))) ∧
    ((List.enumFrom 0 (segments "http://h/p/list.m3u8"
      "#EXTM3U\nseg0.ts\nhttp://other/seg1.ts\nseg2.ts")).map
      (fun p => segPath "wd" p.1)).length =
      (segments "http://h/p/list.m3u8"
        "#EXTM3U\nseg0.ts\nhttp://other/seg1.ts\nseg2.ts").length ∧
    (∀ k, k < (segments "http://h/p/list.m3u8"
        "#EXTM3U\nseg0.ts\nhttp://other/seg1.ts\nseg2.ts").length →
      ((List.enumFrom 0 (segments "http://h/p/list.m3u8"
        "#EXTM3U\nseg0.ts\nhttp://other/seg1.ts\nseg2.ts")).map
        (fun p => segPath "wd" p.1)).getD k "" = segPath "wd" k) ∧
    Ev.mergeInvoke
      ((List.enumFrom 0 (segments "http://h/p/list.m3u8"
        "#EXTM3U\nseg0.ts\nhttp://other/seg1.ts\nseg2.ts")).map
        (fun p => segPath "wd" p.1))
      ("wd" ++ "/output.mp4") ∈ handleMessage wPlaylist3 "wd" "http://h/p/list.m3u8" :=
  claim3_order_preservation wPlaylist3 "wd" "http://h/p/list.m3u8" "http://h/p/list.m3u8"
    "#EXTM3U\nseg0.ts\nhttp://other/seg1.ts\nseg2.ts"
    (by decide) (by decide) (by rfl) (by decide)

/-- Claim C5: when the fetch of segment k fails (all earlier ones having
succeeded), resolution stops at that very attempt — the trace holds only
the first k+1 fetch events, so segments k+2..N are never fetched — the
segment's own error propagates, the concatenation step is never invoked,
and the error surfaces as the single user-facing error edit. -/
theorem claim5_fail_fast (w : World) (workdir text url body e : String) (k : Nat)
    (hcl : classifyUrl text = some url) (hm3 : strEndsWith url ".m3u8" = true)
    (hpl : w.fetch url = Except.ok body)
    (hk : k < (segments url body).length)
    (hbefore : ∀ j, j < k → exOk (w.fetch ((segments url body).getD j "")) = true)
    (hfail : w.fetch ((segments url body).getD k "") = Except.error e) :
    download_m3u8 w url workdir =
      (Ev.fetchText url ::
        (List.enumFrom 0 ((segments url body).take (k + 1))).map
          (fun p => Ev.fetch p.2 (segPath workdir p.1)),
       Except.error e) ∧
    (∀ segs out, Ev.mergeInvoke segs out ∉ handleMessage w workdir text) ∧
    Ev.statusEdit ("❌ Error: " ++ e) ∈ handleMessage w workdir text := by
  have hfs := fetchSegs_err w workdir e (segments url body) k 0 hk hbefore hfail
  have hdm : download_m3u8 w url workdir =
      (Ev.fetchText url ::
        (List.enumFrom 0 ((segments url body).take (k + 1))).map
          (fun p => Ev.fetch p.2 (segPath workdir p.1)),
       Except.error e) := by
    simp only [download_m3u8, hpl, hfs]
  have hpb : pipelineBody w url workdir =
      (Ev.statusEdit "📥 Downloading playlist and segments..." :: Ev.fetchText url ::
        (List.enumFrom 0 ((segments url body).take (k + 1))).map
          (fun p => Ev.fetch p.2 (segPath workdir p.1)),
       Except.error e) := by
    unfold pipelineBody
    rw [hm3, if_pos rfl, hdm]
    simp [ebind]
  refine ⟨hdm, ?_, ?_⟩
  · intro segs out
    unfold handleMessage
    simp [hcl, hpb]
  · exact err_edit_mem_handleMessage w workdir text url e hcl (by rw [hpb])

/-- Witness for C5: the second of three segments fails; only the first
two fetch attempts appear, no merge happens, the error is reported. -/
theorem claim5_witness :
    download_m3u8 wSegFail "http://h/p/list.m3u8" "wd" =
      (Ev.fetchText "http://h/p/list.m3u8" ::
        (List.enumFrom 0 ((segments "http://h/p/list.m3u8" "s0.ts\ns1.ts\ns2.ts").take 2)).map
          (fun p => Ev.fetch p.2 (segPath "wd" p.1)),
       Except.error "boom") ∧
    (∀ segs out,
      Ev.mergeInvoke segs out ∉ handleMessage wSegFail "wd" "http://h/p/list.m3u8") ∧
    Ev.statusEdit ("❌ Error: " ++ "boom") ∈ handleMessage wSegFail "wd" "http://h/p/list.m3u8" :=
  claim5_fail_fast wSegFail "wd" "http://h/p/list.m3u8" "http://h/p/list.m3u8"
    "s0.ts\ns1.ts\ns2.ts" "boom" 1
    (by decide) (by decide) (by rfl) (by decide) (by decide) (by rfl)

/-- Claim C4 counterexample: the line `ftp://other/seg1.ts` has a scheme
in the sense of the spec wording, yet the resolver base-joins it instead
of using it verbatim — the claim's "verbatim iff it already has a
scheme" rule fails at this concrete input (the code tests the literal
prefix `http` instead). -/
theorem claim4_counterexample :
    specHasScheme "ftp://other/seg1.ts" = true ∧
    resolveLine (rsplitBase "http://h/p/list.m3u8") "ftp://other/seg1.ts" ≠
      "ftp://other/seg1.ts" ∧
    segments "http://h/p/list.m3u8" "ftp://other/seg1.ts" =
      ["http://h/p/ftp://other/seg1.ts"] := by decide

/-- Claim C4 amended: a line is a segment reference iff it is non-empty
and does not start with `#`; a reference is used verbatim iff it starts
with the four characters `http` (not: iff it has a scheme); any other
reference is appended to the playlist URL with everything after the
final slash stripped.  On the claim's example playlist the three
resolved URLs come out as stated and are fetched in that order. -/
theorem claim4_amended (w : World) (workdir body : String)
    (hpl : w.fetch "http://h/p/list.m3u8" =
      Except.ok "#EXTM3U\nseg0.ts\nhttp://other/seg1.ts\nseg2.ts")
    (hok : ∀ u ∈ segments "http://h/p/list.m3u8"
        "#EXTM3U\nseg0.ts\nhttp://other/seg1.ts\nseg2.ts",
      exOk (w.fetch u) = true) :
    (∀ l, l ∈ segmentLines body ↔
      l ∈ splitlines body ∧ l ≠ "" ∧ strStartsWith l "#" = false) ∧
    (∀ base l, strStartsWith l "http" = true → resolveLine base l = l) ∧
    (∀ base l, strStartsWith l "http" = false → resolveLine base l = base ++ "/" ++ l) ∧
    segments "http://h/p/list.m3u8" "#EXTM3U\nseg0.ts\nhttp://other/seg1.ts\nseg2.ts" =
      ["http://h/p/seg0.ts", "http://other/seg1.ts", "http://h/p/seg2.ts"] ∧
    (download_m3u8 w "http://h/p/list.m3u8" workdir).1 =
      [Ev.fetchText "http://h/p/list.m3u8",
       Ev.fetch "http://h/p/seg0.ts" (segPath workdir 0),
       Ev.fetch "http://other/seg1.ts" (segPath workdir 1),
       Ev.fetch "http://h/p/seg2.ts" (segPath workdir 2)] := by
  have hsegs : segments "http://h/p/list.m3u8"
      "#EXTM3U\nseg0.ts\nhttp://other/seg1.ts\nseg2.ts" =
      ["http://h/p/seg0.ts", "http://other/seg1.ts", "http://h/p/seg2.ts"] := by decide
  refine ⟨?_, ?_, ?_, hsegs, ?_⟩
  · intro l
    simp [segmentLines, List.mem_filter, and_assoc]
  · intro base l h; simp [resolveLine, h]
  · intro base l h; simp [resolveLine, h]
  · have hok2 : ∀ u ∈ ["http://h/p/seg0.ts", "http://other/seg1.ts", "http://h/p/seg2.ts"],
        exOk (w.fetch u) = true := by rw [hsegs] at hok; exact hok
    have hfs := fetchSegs_ok w workdir
      ["http://h/p/seg0.ts", "http://other/seg1.ts", "http://h/p/seg2.ts"] 0 hok2
    simp only [download_m3u8, hpl, hsegs, hfs]
    simp [List.enumFrom]

/-- Witness for the amended C4 in the concrete three-segment world. -/
theorem claim4_witness :
    (download_m3u8 wPlaylist3 "http://h/p/list.m3u8" "wd").1 =
      [Ev.fetchText "http://h/p/list.m3u8",
       Ev.fetch "http://h/p/seg0.ts" (segPath "wd" 0),
       Ev.fetch "http://other/seg1.ts" (segPath "wd" 1),
       Ev.fetch "http://h/p/seg2.ts" (segPath "wd" 2)] :=
  (claim4_amended wPlaylist3 "wd" "x" (by rfl) (by decide)).2.2.2.2

set_option maxRecDepth 10000 in
/-- Claim C6 counterexample: on a playlist with zero segment references
the code raises no empty-playlist error; it invokes the concatenation
step on the empty list, and in a world where the tool and the upload
succeed, the pipeline performs an empty successful merge and delivers
the output — the complete successful trace at this concrete input. -/
theorem claim6_counterexample :
    segments "http://h/p/list.m3u8" "#EXTM3U\n" = [] ∧
    handleMessage wEmptyOk "wd" "http://h/p/list.m3u8" =
      [Ev.reply "🔗 Processing your request...",
       Ev.statusEdit "📥 Downloading playlist and segments...",
       Ev.fetchText "http://h/p/list.m3u8",
       Ev.statusEdit "🔄 Merging segments with ffmpeg...",
       Ev.manifestWrite "wd/output.mp4.txt" "",
       Ev.mergeInvoke [] "wd/output.mp4",
       Ev.manifestRemove "wd/output.mp4.txt",
       Ev.sizeQuery "wd/output.mp4",
       Ev.statusEdit "⬆️ Uploading to Telegram...",
       Ev.upload "wd/output.mp4",
       Ev.statusDelete,
       Ev.destroyScratch] := by decide

/-- Claim C6 amended: a playlist that resolves to zero segment
references makes the resolver return the empty list, which is passed to
the concatenation step; there is no distinguished empty-playlist error —
the pipeline fails only when the external tool itself exits non-zero, in
which case the tool's diagnostic is reported as the merge failure. -/
theorem claim6_amended (w : World) (workdir text url body : String)
    (hcl : classifyUrl text = some url) (hm3 : strEndsWith url ".m3u8" = true)
    (hpl : w.fetch url = Except.ok body) (hempty : segments url body = []) :
    (download_m3u8 w url workdir).2 = Except.ok [] ∧
    Ev.mergeInvoke [] (workdir ++ "/output.mp4") ∈ handleMessage w workdir text ∧
    (∀ stderr, w.ffmpeg [] (workdir ++ "/output.mp4") = Except.error stderr →
      Ev.statusEdit ("❌ Error: ffmpeg failed: " ++ stderr) ∈ handleMessage w workdir text) := by
  have hdm : download_m3u8 w url workdir = ([Ev.fetchText url], Except.ok []) := by
    simp only [download_m3u8, hpl, hempty, fetchSegs]
  refine ⟨by rw [hdm], ?_, ?_⟩
  · apply mem_handleMessage_of_mem_pipeline w workdir text url hcl
    unfold pipelineBody
    rw [hm3, if_pos rfl]
    apply mem_ebind_left
    apply mem_ebind_right _ _ () rfl
    apply mem_ebind_right _ _ [] (by rw [hdm])
    apply mem_ebind_right _ _ () rfl
    cases hff : w.ffmpeg [] (workdir ++ "/output.mp4") with
    | error s => simp [merge_segments_ffmpeg, hff]
    | ok u => simp [merge_segments_ffmpeg, hff]
  · intro stderr hff
    apply err_edit_mem_handleMessage w workdir text url _ hcl
    unfold pipelineBody
    rw [hm3, if_pos rfl, hdm]
    simp only [merge_segments_ffmpeg, hff, ebind_ok, ebind_error]
    rfl

/-- Witness for the amended C6: the empty playlist with a failing tool
reports the tool's diagnostic. -/
theorem claim6_witness :
    (download_m3u8 wEmptyMergeFail "http://h/p/list.m3u8" "wd").2 = Except.ok [] ∧
    Ev.mergeInvoke [] ("wd" ++ "/output.mp4") ∈
      handleMessage wEmptyMergeFail "wd" "http://h/p/list.m3u8" ∧
    (∀ stderr, wEmptyMergeFail.ffmpeg [] ("wd" ++ "/output.mp4") = Except.error stderr →
      Ev.statusEdit ("❌ Error: ffmpeg failed: " ++ stderr) ∈
        handleMessage wEmptyMergeFail "wd" "http://h/p/list.m3u8") :=
  claim6_amended wEmptyMergeFail "wd" "http://h/p/list.m3u8" "http://h/p/list.m3u8"
    "#EXTM3U\n" (by decide) (by decide) (by rfl) (by decide)

/-- Claim C7: on every run whose message classified to a URL — whatever
exit path the pipeline then takes (success, size rejection, or an error
raised in any phase, for every oracle behaviour) — the scratch area is
destroyed exactly once, after every scratch-touching event; only the
final user-facing error edit may follow the destruction. -/
theorem claim7_cleanup (w : World) (workdir text url : String)
    (hcl : classifyUrl text = some url) :
    List.count Ev.destroyScratch (handleMessage w workdir text) = 1 ∧
    ∃ pre post, handleMessage w workdir text = pre ++ Ev.destroyScratch :: post ∧
      Ev.destroyScratch ∉ pre ∧ Ev.destroyScratch ∉ post ∧
      ∀ e ∈ post, ∃ s, e = Ev.statusEdit s := by
  have hnd := destroy_not_in_pipelineBody w url workdir
  have hpre : Ev.destroyScratch ∉
      Ev.reply "🔗 Processing your request..." :: (pipelineBody w url workdir).1 := by
    intro h
    rcases List.mem_cons.mp h with h | h
    · simp at h
    · exact hnd h
  have hshape : handleMessage w workdir text =
      (Ev.reply "🔗 Processing your request..." :: (pipelineBody w url workdir).1) ++
        Ev.destroyScratch ::
          (match (pipelineBody w url workdir).2 with
           | Except.ok _ => ([] : List Ev)
           | Except.error e => [Ev.statusEdit ("❌ Error: " ++ e)]) := by
    unfold handleMessage
    simp [hcl]
  have hpostdes : Ev.destroyScratch ∉
      (match (pipelineBody w url workdir).2 with
       | Except.ok _ => ([] : List Ev)
       | Except.error e => [Ev.statusEdit ("❌ Error: " ++ e)]) ∧
      ∀ e ∈ (match (pipelineBody w url workdir).2 with
       | Except.ok _ => ([] : List Ev)
       | Except.error e => [Ev.statusEdit ("❌ Error: " ++ e)]),
        ∃ s, e = Ev.statusEdit s := by
    cases hr : (pipelineBody w url workdir).2 with
    | ok a => simp [hr]
    | error s => simp [hr]
  refine ⟨?_, _, _, hshape, hpre, hpostdes.1, hpostdes.2⟩
  rw [hshape, List.count_append, List.count_eq_zero.mpr hpre]
  simp [List.count_cons, List.count_eq_zero.mpr hpostdes.1]

/-- Witness for C7 in the all-success world on a direct link. -/
theorem claim7_witness :
    List.count Ev.destroyScratch (handleMessage wAllOk "wd" "http://h/v.mp4") = 1 ∧
    ∃ pre post, handleMessage wAllOk "wd" "http://h/v.mp4" =
        pre ++ Ev.destroyScratch :: post ∧
      Ev.destroyScratch ∉ pre ∧ Ev.destroyScratch ∉ post ∧
      ∀ e ∈ post, ∃ s, e = Ev.statusEdit s :=
  claim7_cleanup wAllOk "wd" "http://h/v.mp4" "http://h/v.mp4" (by decide)

/-- Claim C8: the concatenation step writes a manifest whose lines are
exactly one `file` entry (with the path between single quotes) per
segment, in order; a non-zero tool exit makes it fail carrying the
tool's standard-error text, with the manifest left in place and the
segments untouched; a zero exit removes the manifest and keeps every
segment file (the complete event lists show no other file operation). -/
theorem claim8_concatenator (w : World) (segment_files : List String) (output_path : String)
    (hnl : ∀ s ∈ segment_files, s.data.all (fun c => !(c = '\n') && !(c = '\r')) = true) :
    splitlines (manifestContent segment_files) = segment_files.map manifestLine ∧
    (∀ s, manifestLine s = "file " ++ sq ++ s ++ sq) ∧
    (∀ stderr, w.ffmpeg segment_files output_path = Except.error stderr →
      merge_segments_ffmpeg w segment_files output_path =
        ([Ev.manifestWrite (output_path ++ ".txt") (manifestContent segment_files),
          Ev.mergeInvoke segment_files output_path],
         Except.error ("ffmpeg failed: " ++ stderr))) ∧
    (w.ffmpeg segment_files output_path = Except.ok () →
      merge_segments_ffmpeg w segment_files output_path =
        ([Ev.manifestWrite (output_path ++ ".txt") (manifestContent segment_files),
          Ev.mergeInvoke segment_files output_path,
          Ev.manifestRemove (output_path ++ ".txt")],
         Except.ok output_path)) := by
  refine ⟨splitlines_manifest segment_files hnl, fun s => rfl, ?_, ?_⟩
  · intro stderr hff; simp [merge_segments_ffmpeg, hff]
  · intro hff; simp [merge_segments_ffmpeg, hff]

/-- Witness for C8 on two concrete segment paths. -/
theorem claim8_witness :
    splitlines (manifestContent ["a.ts", "b.ts"]) = ["a.ts", "b.ts"].map manifestLine :=
  (claim8_concatenator wAllOk ["a.ts", "b.ts"] "out.mp4" (by decide)).1

end Bot
